import Mathlib

set_option maxRecDepth 8192

/-!
Verification of the hybrid-search engine of the `agentic_orchestrator`
repository (`src/server/src/services/search.ts` and the SQL templates in
`src/utils/sqlTemplates.ts`).

The TypeScript code is shallowly embedded:
* JS strings are modelled as `List Char`; `charCodeAt` is `Char.toNat`,
  `toLowerCase` maps `Char.toLower`, `trim` drops whitespace from both ends,
  `includes` is the infix test on character lists.
* JS numbers on code paths that only ever hold exact decimal values
  (search scores, RRF scores) are modelled as `ℚ`; the deterministic
  embedding, which applies `Math.sin`/`Math.cos`, is modelled over `ℝ`.
* External effects (the document store, the embedding provider HTTP call,
  the wall clock) are modelled as explicit oracle parameters: each function
  takes the outcome of the calls it makes and is otherwise pure.
-/

/-! ## JS string primitives -/

/-- The ASCII whitespace characters removed by `String.prototype.trim`
(the source only ever trims ASCII text). -/
def jsWhitespaceChars : List Char := [' ', '\t', '\n', '\r', '\x0b', '\x0c']

/-- Whitespace test for `trim`. -/
def isJsWhitespace (c : Char) : Bool := jsWhitespaceChars.contains c

/-- Model of `String.prototype.trim`: drop whitespace from both ends. -/
def jsTrim (s : List Char) : List Char :=
  ((s.dropWhile isJsWhitespace).reverse.dropWhile isJsWhitespace).reverse

/-- Model of `String.prototype.toLowerCase` (ASCII). -/
def jsToLower (s : List Char) : List Char := s.map Char.toLower

/-- Model of `hay.includes(needle)`: the substring test. -/
def jsIncludes (hay needle : List Char) : Bool := decide (needle <:+: hay)

/-! ## Cache keys (`generateCacheKey`, search.ts lines 101-110)

The source computes a 32-bit string hash with
`hash = ((hash << 5) - hash) + charCode; hash = hash & hash` and renders the
key as the template string `embedding:${hash}:${text.length}`.  The rendering
is injective in the pair `(hash, length)`, so the key is modelled as that
pair. -/

/-- Wrap an integer to a signed 32-bit value, as JS `| 0` / `&` coercion does. -/
def toInt32 (x : ℤ) : ℤ := (x + 2 ^ 31) % 2 ^ 32 - 2 ^ 31

/-- One step of the JS string hash: `hash = ((hash << 5) - hash) + char`,
then `hash = hash & hash` (coercion back to int32).  `hash << 5` itself
wraps to int32 before the subtraction. -/
def jsHashStep (h : ℤ) (c : Char) : ℤ := toInt32 (toInt32 (h * 32) - h + c.toNat)

/-- The hash loop of `generateCacheKey` over the whole text. -/
def jsHash (text : List Char) : ℤ := text.foldl jsHashStep 0

/-- A cache key: the source's `embedding:${hash}:${text.length}` string,
modelled as the (hash, length) pair it injectively renders. -/
structure CacheKey where
  hash : ℤ
  len : ℕ
deriving DecidableEq

/-- Model of `generateCacheKey(text)` (search.ts lines 101-110). -/
def generateCacheKey (text : List Char) : CacheKey :=
  { hash := jsHash text, len := text.length }

/-- The cache key actually used by `generateEmbedding` for an input `text`:
both `getCachedEmbedding` and `cacheEmbedding` are called with
`cleanText = text.trim()` (search.ts lines 176-183, 248, 273), so the key is
`generateCacheKey(text.trim())`.  No lower-casing happens on this path. -/
def cacheKeyUsed (text : List Char) : CacheKey := generateCacheKey (jsTrim text)

/-! ## Rate limiter (`checkRateLimit`, search.ts lines 35-57)

State: the list of request timestamps `RATE_LIMIT.requestQueue`
(milliseconds, modelled as `ℤ`).  A call at wall-clock time `now`
1. prunes entries with `timestamp ≤ now - 60000`,
2. if the remaining count is ≥ 500, computes
   `waitTime = 60000 - (now - oldest)` and sleeps for it when positive,
3. appends `{timestamp: now}` (the time captured at entry, not after the
   sleep) and returns.
The model returns the new queue together with the time slept, so a call
entered at `now` completes at `now + wait`.  The only `await` in the
function is the sleep itself, so each call is two atomic phases against the
shared queue: prune-and-check at entry time, and the push when the sleep
(if any) ends; other calls can run in between, as the `Promise.all`s in
`batchIndexDocuments` (search.ts line 538) and `warmupCache` (line 589)
make happen. -/

/-- Maximum requests per rolling minute (`RATE_LIMIT.maxRequestsPerMinute`). -/
def maxRequestsPerMinute : ℕ := 500

/-- One `checkRateLimit` call at time `now`: returns the updated queue and
the time slept. -/
def checkRateLimit (q : List ℤ) (now : ℤ) : List ℤ × ℤ :=
  let pruned := q.filter (fun t => decide (t > now - 60000))
  let wait : ℤ :=
    if pruned.length ≥ maxRequestsPerMinute then
      match pruned.head? with
      | some oldest => let w := 60000 - (now - oldest); if w > 0 then w else 0
      | none => 0
    else 0
  (pruned ++ [now], wait)

/-- Number of queue entries lying within the trailing 60 seconds of time `t`. -/
def countWindow (q : List ℤ) (t : ℤ) : ℕ :=
  (q.filter (fun x => decide (x > t - 60000))).length

/-- The synchronous prefix of a `checkRateLimit` call at entry time `now`:
the prune assigned to the shared queue (search.ts lines 40-42), on which
the capacity check is then made. -/
def rlPrune (q : List ℤ) (now : ℤ) : List ℤ :=
  q.filter (fun t => decide (t > now - 60000))

/-- The sleep duration computed in the same synchronous prefix (search.ts
lines 45-52): `60000 - (now - oldest)` when the pruned queue is at capacity
and that is positive, else 0. -/
def rlWaitTime (pruned : List ℤ) (now : ℤ) : ℤ :=
  if pruned.length ≥ maxRequestsPerMinute then
    match pruned.head? with
    | some oldest => let w := 60000 - (now - oldest); if w > 0 then w else 0
    | none => 0
  else 0

/-- The resumption after the sleep (search.ts line 56): append the
entry-time timestamp to whatever the shared queue holds at that moment. -/
def rlPush (q : List ℤ) (now : ℤ) : List ℤ := q ++ [now]

/-- A queue at exactly the 500-request capacity: one timestamp at 0 ms and
499 at 30000 ms. -/
def rlOverflowQueue : List ℤ := 0 :: List.replicate 499 30000

/-- C7: the claimed window invariant fails on the code.  `checkRateLimit`
awaits between its prune/capacity check and its push exactly on the
saturated path, and this codebase overlaps calls (`batchIndexDocuments`
runs up to 10 `indexDocument → generateEmbedding → checkRateLimit` chains
concurrently through one `Promise.all`, `warmupCache` up to 5).  Two
saturated callers then interleave: caller A enters at 50000 ms, prunes
(nothing is stale), finds 500 entries and sleeps 10000 ms keyed to the
oldest entry; caller B enters at 51000 ms while A sleeps — the queue is
unchanged, since A pushes only after its sleep — finds the same 500
entries and sleeps 9000 ms keyed to the same oldest entry; at 60000 ms
both resume and push without re-checking, leaving 501 timestamps inside
the trailing 60 seconds.  The first conjunct checks the phase
decomposition against `checkRateLimit` itself; the remaining conjuncts
evaluate that interleaved trace at the failing input. -/
theorem checkRateLimit_concurrent_window_overflow :
    (∀ (q : List ℤ) (now : ℤ),
      checkRateLimit q now =
        (rlPush (rlPrune q now) now, rlWaitTime (rlPrune q now) now)) ∧
    countWindow rlOverflowQueue 50000 = maxRequestsPerMinute ∧
    countWindow rlOverflowQueue 51000 = maxRequestsPerMinute ∧
    rlPrune rlOverflowQueue 50000 = rlOverflowQueue ∧
    rlWaitTime rlOverflowQueue 50000 = 10000 ∧
    rlPrune rlOverflowQueue 51000 = rlOverflowQueue ∧
    rlWaitTime rlOverflowQueue 51000 = 9000 ∧
    (50000 : ℤ) + 10000 = 60000 ∧ (51000 : ℤ) + 9000 = 60000 ∧
    countWindow (rlPush (rlPush rlOverflowQueue 50000) 51000) 60000 =
      maxRequestsPerMinute + 1 := by
  refine ⟨fun q now => rfl, ?_, ?_, ?_, ?_, ?_, ?_, ?_, ?_, ?_⟩ <;> decide

/-! ## C8: cache-key normalization -/

/-- C8 counterexample: the texts `"Hello"` and `"hello"` are equal after
trimming and lower-casing, yet `generateEmbedding` addresses them through
different cache keys — the key hashes the trimmed text without lower-casing
it. -/
theorem cacheKey_not_lowercased :
    jsToLower (jsTrim "Hello".toList) = jsToLower (jsTrim "hello".toList) ∧
    cacheKeyUsed "Hello".toList ≠ cacheKeyUsed "hello".toList := by
  constructor
  · decide
  · decide

/-- C8 amended: the embedding-cache key is the stable hash of the trimmed
(but not lower-cased) text plus that text's length, so any two texts equal
after trimming address the same cache entry. -/
theorem cacheKey_trim_stable (s t : List Char) (h : jsTrim s = jsTrim t) :
    cacheKeyUsed s = cacheKeyUsed t := by
  unfold cacheKeyUsed
  rw [h]

/-- Witness for C8 amended at `" abc "` and `"abc"`. -/
theorem cacheKey_trim_stable_witness :
    jsTrim " abc ".toList = jsTrim "abc".toList ∧
    cacheKeyUsed " abc ".toList = cacheKeyUsed "abc".toList :=
  ⟨by decide, cacheKey_trim_stable _ _ (by decide)⟩

/-! ## Deterministic fallback embedding
(`generateDeterministicEmbedding`, search.ts lines 131-166)

The source works on IEEE doubles with `Math.sin`/`Math.cos`; following the
spec's note that only determinism, shape and unit-normalization are
contractual, the arithmetic is modelled over `ℝ`. -/

/-- Value of `OPENAI_CONFIG.dimensions`. -/
def embeddingDimensions : ℕ := 1536

/-- The scalar accumulated for output dimension `i`: character codes of the
normalized (lower-cased then trimmed) text weighted by position and
dimension, plus length and keyword biases (search.ts lines 138-151). -/
noncomputable def detComponentValue (text : List Char) (i : ℕ) : ℝ :=
  let n := jsTrim (jsToLower text)
  ((n.enum.map (fun p => (p.2.toNat : ℝ) * ((i : ℝ) + 1) * ((p.1 : ℝ) + 1))).sum)
    + (n.length : ℝ) * i
    + (if jsIncludes n "coordination".toList then 0.1 * (i : ℝ) else 0)
    + (if jsIncludes n "database".toList then 0.15 * (i : ℝ) else 0)
    + (if jsIncludes n "workflow".toList then 0.12 * (i : ℝ) else 0)
    + (if jsIncludes n "agent".toList then 0.13 * (i : ℝ) else 0)
    + (if jsIncludes n "orchestration".toList then 0.14 * (i : ℝ) else 0)

/-- The raw (pre-normalization) embedding:
`embedding[i] = (sin(value*0.001) + cos(value*0.0007)) / 2`
(search.ts line 154). -/
noncomputable def detRaw (text : List Char) : List ℝ :=
  (List.range embeddingDimensions).map (fun i =>
    (Real.sin (detComponentValue text i * 0.001) +
     Real.cos (detComponentValue text i * 0.0007)) / 2)

/-- Euclidean magnitude `sqrt(Σ v_i²)` (search.ts line 158). -/
noncomputable def l2norm (v : List ℝ) : ℝ :=
  Real.sqrt ((v.map (fun x => x ^ 2)).sum)

/-- Model of `generateDeterministicEmbedding(text)`: the raw vector, divided by its
magnitude when that is positive (search.ts lines 157-163). -/
noncomputable def generateDeterministicEmbedding (text : List Char) : List ℝ :=
  let e := detRaw text
  let m := l2norm e
  if m > 0 then e.map (fun x => x / m) else e

lemma sumSq_nonneg (v : List ℝ) : 0 ≤ (v.map (fun x => x ^ 2)).sum := by
  apply List.sum_nonneg
  intro x hx
  obtain ⟨y, _, rfl⟩ := List.mem_map.1 hx
  exact sq_nonneg y

/-- C9: the deterministic fallback is a pure function of its input text
(two calls on equal texts give identical vectors), always yields exactly
1536 components, and — whenever the raw vector's magnitude is positive, which
is the guard the source normalizes under — the returned vector has unit
Euclidean norm. -/
theorem generateDeterministicEmbedding_spec (text : List Char) :
    (∀ t', t' = text →
      generateDeterministicEmbedding t' = generateDeterministicEmbedding text) ∧
    (generateDeterministicEmbedding text).length = embeddingDimensions ∧
    (0 < l2norm (detRaw text) →
      l2norm (generateDeterministicEmbedding text) = 1) := by
  refine ⟨fun t' h => by rw [h], ?_, ?_⟩
  · unfold generateDeterministicEmbedding
    by_cases hm : l2norm (detRaw text) > 0
    · rw [if_pos hm, List.length_map]
      unfold detRaw
      rw [List.length_map, List.length_range]
    · rw [if_neg hm]
      unfold detRaw
      rw [List.length_map, List.length_range]
  · intro hm
    unfold generateDeterministicEmbedding
    rw [if_pos hm]
    set e := detRaw text with he
    set m := l2norm e with hmdef
    set S : ℝ := (e.map (fun x => x ^ 2)).sum with hS
    have hSnn : 0 ≤ S := sumSq_nonneg e
    have hSm : m = Real.sqrt S := rfl
    have hSpos : 0 < S := by
      by_contra hc
      push_neg at hc
      have : S = 0 := le_antisymm hc hSnn
      rw [hSm, this, Real.sqrt_zero] at hm
      exact lt_irrefl 0 hm
    have hmsq : m ^ 2 = S := by rw [hSm]; exact Real.sq_sqrt hSnn
    unfold l2norm
    rw [List.map_map]
    have hcomp : ((fun x => x ^ 2) ∘ fun x => x / m) =
        fun x => x ^ 2 * (m ^ 2)⁻¹ := by
      funext x
      rw [Function.comp_apply, div_pow, div_eq_mul_inv]
    rw [hcomp]
    have hmr : (e.map (fun x => x ^ 2 * (m ^ 2)⁻¹)).sum =
        (e.map (fun x => x ^ 2)).sum * (m ^ 2)⁻¹ := by
      rw [← List.sum_map_mul_right]
    rw [hmr, ← hS, hmsq, mul_inv_cancel₀ (ne_of_gt hSpos), Real.sqrt_one]

lemma detComponentValue_nil (i : ℕ) : detComponentValue [] i = 0 := by
  simp [detComponentValue, jsTrim, jsToLower, jsIncludes, List.infix_nil]

lemma detRaw_nil_magnitude : l2norm (detRaw []) = Real.sqrt 384 := by
  unfold l2norm detRaw
  rw [List.map_map]
  have hcomp : ((fun x => x ^ 2) ∘ fun i =>
      (Real.sin (detComponentValue [] i * 0.001) +
       Real.cos (detComponentValue [] i * 0.0007)) / 2) =
      fun _ => (1/4 : ℝ) := by
    funext i
    rw [Function.comp_apply, detComponentValue_nil, zero_mul, zero_mul,
      Real.sin_zero, Real.cos_zero]
    norm_num
  rw [hcomp, List.map_const', List.sum_replicate, List.length_range]
  norm_num [embeddingDimensions, nsmul_eq_mul]

/-- Witness for C9 at the empty text: the magnitude guard holds and the
normalized vector has unit norm and 1536 entries. -/
theorem generateDeterministicEmbedding_spec_witness :
    0 < l2norm (detRaw []) ∧
    (generateDeterministicEmbedding []).length = embeddingDimensions ∧
    l2norm (generateDeterministicEmbedding []) = 1 := by
  have hpos : 0 < l2norm (detRaw []) := by
    rw [detRaw_nil_magnitude]
    exact Real.sqrt_pos.mpr (by norm_num)
  exact ⟨hpos, (generateDeterministicEmbedding_spec []).2.1,
    (generateDeterministicEmbedding_spec []).2.2 hpos⟩

/-! ## Embedding generation (`generateEmbedding`, search.ts lines 170-288)

The provider HTTP call is an oracle: its outcome is either a parsed
successful body (`data.data`, a list of embeddings), an HTTP error status
with status text, or an abort (timeout).  The cache lookup outcome is an
`Option`.  Error values carry the thrown message, exactly as the outer
`catch` inspects it. -/

/-- Outcome of the `fetch` to the embedding provider. -/
inductive ProviderOutcome where
  | ok (data : List (List ℝ))
  | httpError (status : ℕ) (statusText : List Char)
  | aborted

def emptyTextMsg : List Char := "Cannot generate embedding for empty text".toList

def rateLimitMsg : List Char := "OpenAI API rate limit exceeded".toList

def authFailMsg : List Char :=
  "OpenAI API authentication failed - check your API key".toList

def serverErrMsg : List Char := "OpenAI API server error - try again later".toList

def invalidRespMsg : List Char := "Invalid response from OpenAI API".toList

/-- The dimension-mismatch message; its numeric tail
(`expected 1536, got ...`) is elided, as no branch inspects it. -/
def invalidDimsMsg : List Char := "Invalid embedding dimensions: expected ".toList

def timedOutMsg : List Char := "OpenAI API request timed out".toList

/-- Message for non-429/401/5xx HTTP errors:
`OpenAI API error: ${response.statusText}`. -/
def statusErrMsg (statusText : List Char) : List Char :=
  "OpenAI API error: ".toList ++ statusText

/-- Model of `openaiApiKey && openaiApiKey.startsWith('sk-')` (line 188):
the key must be present, truthy (non-empty) and start with `sk-`. -/
def apiKeyConfigured : Option (List Char) → Bool
  | none => false
  | some k => decide (k ≠ []) && decide (k.take 3 = "sk-".toList)

/-- The outer catch falls back exactly when the message mentions a rate
limit or a timeout (search.ts line 281). -/
def fallbackTriggers (msg : List Char) : Bool :=
  jsIncludes msg "rate limit".toList || jsIncludes msg "timed out".toList

/-- The body of the `try` block of `generateEmbedding`: empty-input check,
cache lookup, provider-key gate, provider call with status classification
and response-shape validation (search.ts lines 171-276). -/
noncomputable def generateEmbeddingTry (apiKey : Option (List Char))
    (cached : Option (List ℝ)) (provider : ProviderOutcome)
    (text : List Char) : Except (List Char) (List ℝ) :=
  if (jsTrim text).length = 0 then .error emptyTextMsg
  else
    match cached with
    | some e => .ok e
    | none =>
      if apiKeyConfigured apiKey then
        match provider with
        | .ok data =>
          match data with
          | [] => .error invalidRespMsg
          | e :: _ =>
            if e.length = embeddingDimensions then .ok e
            else .error invalidDimsMsg
        | .httpError status statusText =>
          if status = 429 then .error rateLimitMsg
          else if status = 401 then .error authFailMsg
          else if status ≥ 500 then .error serverErrMsg
          else .error (statusErrMsg statusText)
        | .aborted => .error timedOutMsg
      else .ok (generateDeterministicEmbedding (jsTrim text))

/-- Model of `generateEmbedding` with its outer catch (lines 277-287):
messages mentioning a rate limit or timeout are replaced by the
deterministic fallback on `text.trim()`; every other error is rethrown. -/
noncomputable def generateEmbedding (apiKey : Option (List Char))
    (cached : Option (List ℝ)) (provider : ProviderOutcome)
    (text : List Char) : Except (List Char) (List ℝ) :=
  match generateEmbeddingTry apiKey cached provider text with
  | .ok e => .ok e
  | .error msg =>
    if fallbackTriggers msg then
      .ok (generateDeterministicEmbedding (jsTrim text))
    else .error msg

lemma generateDeterministicEmbedding_length (text : List Char) :
    (generateDeterministicEmbedding text).length = embeddingDimensions := by
  unfold generateDeterministicEmbedding
  by_cases hm : l2norm (detRaw text) > 0
  · rw [if_pos hm, List.length_map]
    unfold detRaw
    rw [List.length_map, List.length_range]
  · rw [if_neg hm]
    unfold detRaw
    rw [List.length_map, List.length_range]

/-- C1 counterexample: with a configured provider key and a provider that
fails authentication (HTTP 401), `generateEmbedding` on the non-empty text
`"hello"` propagates the error to the caller instead of returning the
deterministic fallback vector. -/
theorem generateEmbedding_auth_error_propagates :
    jsTrim "hello".toList ≠ [] ∧
    generateEmbedding (some "sk-test".toList) none
      (.httpError 401 "Unauthorized".toList) "hello".toList =
      .error authFailMsg := by
  exact ⟨by decide, rfl⟩

/-- C1 amended: for text that is empty after trimming the call fails with
the empty-input error; for non-empty text with a configured key and no
cache hit, only provider failures whose message mentions a rate limit or a
timeout (HTTP 429 and aborts) return the deterministic 1536-element
fallback — authentication failures (401), server errors (5xx), an empty
response body and a wrong-dimension embedding all propagate an error to the
caller. -/
theorem generateEmbedding_error_policy (apiKey : Option (List Char))
    (text st : List Char) (htext : jsTrim text ≠ [])
    (hkey : apiKeyConfigured apiKey = true) :
    generateEmbedding apiKey none (.httpError 429 st) text =
      .ok (generateDeterministicEmbedding (jsTrim text)) ∧
    generateEmbedding apiKey none .aborted text =
      .ok (generateDeterministicEmbedding (jsTrim text)) ∧
    generateEmbedding apiKey none (.httpError 401 st) text =
      .error authFailMsg ∧
    (∀ status : ℕ, 500 ≤ status →
      generateEmbedding apiKey none (.httpError status st) text =
        .error serverErrMsg) ∧
    generateEmbedding apiKey none (.ok []) text = .error invalidRespMsg ∧
    (∀ e : List ℝ, e.length ≠ embeddingDimensions →
      generateEmbedding apiKey none (.ok [e]) text = .error invalidDimsMsg) ∧
    (generateDeterministicEmbedding (jsTrim text)).length =
      embeddingDimensions ∧
    (∀ (k : Option (List Char)) (c : Option (List ℝ)) (p : ProviderOutcome)
      (t : List Char), jsTrim t = [] →
      generateEmbedding k c p t = .error emptyTextMsg) := by
  have hfb429 : fallbackTriggers rateLimitMsg = true := by decide
  have hfbto : fallbackTriggers timedOutMsg = true := by decide
  have hfbauth : fallbackTriggers authFailMsg = false := by decide
  have hfbsrv : fallbackTriggers serverErrMsg = false := by decide
  have hfbresp : fallbackTriggers invalidRespMsg = false := by decide
  have hfbdims : fallbackTriggers invalidDimsMsg = false := by decide
  have hfbempty : fallbackTriggers emptyTextMsg = false := by decide
  refine ⟨?_, ?_, ?_, ?_, ?_, ?_, generateDeterministicEmbedding_length _, ?_⟩
  · have htry : generateEmbeddingTry apiKey none (.httpError 429 st) text =
        .error rateLimitMsg := by
      simp [generateEmbeddingTry, htext, hkey]
    simp [generateEmbedding, htry, hfb429]
  · have htry : generateEmbeddingTry apiKey none .aborted text =
        .error timedOutMsg := by
      simp [generateEmbeddingTry, htext, hkey]
    simp [generateEmbedding, htry, hfbto]
  · have htry : generateEmbeddingTry apiKey none (.httpError 401 st) text =
        .error authFailMsg := by
      simp [generateEmbeddingTry, htext, hkey]
    simp [generateEmbedding, htry, hfbauth]
  · intro status hs
    have h429 : status ≠ 429 := by omega
    have h401 : status ≠ 401 := by omega
    have htry : generateEmbeddingTry apiKey none (.httpError status st) text =
        .error serverErrMsg := by
      simp [generateEmbeddingTry, htext, hkey, h429, h401, hs]
    simp [generateEmbedding, htry, hfbsrv]
  · have htry : generateEmbeddingTry apiKey none (.ok []) text =
        .error invalidRespMsg := by
      simp [generateEmbeddingTry, htext, hkey]
    simp [generateEmbedding, htry, hfbresp]
  · intro e he
    have htry : generateEmbeddingTry apiKey none (.ok [e]) text =
        .error invalidDimsMsg := by
      simp [generateEmbeddingTry, htext, hkey, he]
    simp [generateEmbedding, htry, hfbdims]
  · intro k c p t ht
    have h0' : (jsTrim t).length = 0 := by simp [ht]
    have htry : generateEmbeddingTry k c p t = .error emptyTextMsg := by
      unfold generateEmbeddingTry
      rw [if_pos h0']
    simp [generateEmbedding, htry, hfbempty]

/-- Witness for C1 amended at concrete inputs: a timeout on `"hi"` with key
`sk-test` yields the deterministic fallback, and the empty text yields the
empty-input error. -/
theorem generateEmbedding_error_policy_witness :
    jsTrim "hi".toList ≠ [] ∧
    apiKeyConfigured (some "sk-test".toList) = true ∧
    generateEmbedding (some "sk-test".toList) none .aborted "hi".toList =
      .ok (generateDeterministicEmbedding (jsTrim "hi".toList)) ∧
    generateEmbedding (some "sk-test".toList) none .aborted " ".toList =
      .error emptyTextMsg := by
  refine ⟨by decide, by decide, ?_, ?_⟩
  · exact (generateEmbedding_error_policy (some "sk-test".toList) "hi".toList
      "x".toList (by decide) (by decide)).2.1
  · exact (generateEmbedding_error_policy (some "sk-test".toList) "hi".toList
      "x".toList (by decide) (by decide)).2.2.2.2.2.2.2
      (some "sk-test".toList) none .aborted " ".toList (by decide)

/-! ## Reciprocal Rank Fusion (`sqlTemplates.hybridSearch`, lines 57-86)

The CTEs `bm25_results` and `vector_results` each assign `ROW_NUMBER()`
ranks 1.. along their ranking order and keep at most 100 rows; the model
takes each ranking as an input list of document ids (the table's integer
primary keys), already in ranked order.  The outer query FULL OUTER JOINs
the two rank lists on id and computes
`COALESCE(1.0/(60+b.rank),0) + COALESCE(1.0/(60+v.rank),0)`, then orders by
that fused score descending (with no further tie-break) and truncates to
`limit`.  Because SQL leaves the relative order of equal-score rows
unspecified, the result set is modelled as a relation: any score-sorted
permutation of the fused rows, truncated. -/

/-- A ranking CTE: 1-based `ROW_NUMBER()` ranks, capped at 100 rows. -/
def rrfCTE (ranked : List ℕ) : List (ℕ × ℕ) :=
  (ranked.enum.map (fun p => (p.2, p.1 + 1))).take 100

/-- Model of `COALESCE(1.0 / (60 + rank), 0)`: the reciprocal-rank term, 0 when the
document is absent from the method's list (NULL rank). -/
def coalesceRRF : Option ℕ → ℚ
  | some r => 1 / (60 + (r : ℚ))
  | none => 0

/-- Model of `FROM b FULL OUTER JOIN v ON b.id = v.id`: every left row paired with
its (unique) right match, plus every unmatched right row. -/
def fullOuterRows (b v : List (ℕ × ℕ)) : List (ℕ × Option ℕ × Option ℕ) :=
  b.map (fun p => (p.1, some p.2, v.lookup p.1)) ++
    (v.filter (fun p => (b.lookup p.1).isNone)).map
      (fun p => (p.1, none, some p.2))

/-- The fused rows `(id, hybrid_score)` produced by the hybrid-search SQL. -/
def hybridRowsSQL (bl vl : List ℕ) : List (ℕ × ℚ) :=
  (fullOuterRows (rrfCTE bl) (rrfCTE vl)).map
    (fun r => (r.1, coalesceRRF r.2.1 + coalesceRRF r.2.2))

/-- A method's RRF contribution for document `d`: `1/(60+rank)` by its
1-based rank in the capped list, 0 when absent. -/
def rrfTerm (l : List ℕ) (d : ℕ) : ℚ := coalesceRRF ((rrfCTE l).lookup d)

/-- The fused RRF score of the spec: the sum of the two methods' terms. -/
def rrfScore (bl vl : List ℕ) (d : ℕ) : ℚ := rrfTerm bl d + rrfTerm vl d

/-- Rows listed in (weakly) descending fused-score order. -/
def ScoreSortedDesc (rows : List (ℕ × ℚ)) : Prop :=
  rows.Pairwise (fun a b => b.2 ≤ a.2)

/-- The possible result sets of the hybrid-search SQL: some score-descending
permutation of the fused rows, truncated to `limit` (the `ORDER BY
hybrid_score DESC LIMIT $3` fixes only the score order). -/
def IsHybridOutput (bl vl : List ℕ) (lim : ℕ) (out : List (ℕ × ℚ)) : Prop :=
  ∃ rows, rows.Perm (hybridRowsSQL bl vl) ∧ ScoreSortedDesc rows ∧
    out = rows.take lim

/-- The ordering the spec asserts: fused score descending, ties broken by
document id ascending. -/
def specTieOrder (a b : ℕ × ℚ) : Prop := b.2 < a.2 ∨ (a.2 = b.2 ∧ a.1 ≤ b.1)

lemma rrfCTE_keys (l : List ℕ) : (rrfCTE l).map Prod.fst = l.take 100 := by
  unfold rrfCTE
  rw [← List.map_take, List.map_map]
  have hc : (Prod.fst ∘ fun p : ℕ × ℕ => (p.2, p.1 + 1)) =
      (Prod.snd : ℕ × ℕ → ℕ) := rfl
  rw [hc, List.map_take, List.enum_map_snd]

lemma lookup_eq_some_of_mem {l : List (ℕ × ℕ)} (hnd : (l.map Prod.fst).Nodup)
    {d r : ℕ} (hm : (d, r) ∈ l) : l.lookup d = some r := by
  induction l with
  | nil => cases hm
  | cons p t ih =>
    obtain ⟨k, v⟩ := p
    rcases List.mem_cons.1 hm with heq | htail
    · rw [Prod.mk.injEq] at heq
      obtain ⟨rfl, rfl⟩ := heq
      simp [List.lookup]
    · have hk : d ≠ k := by
        intro h
        subst h
        have : d ∈ t.map Prod.fst := List.mem_map.2 ⟨(d, r), htail, rfl⟩
        exact (List.nodup_cons.1 hnd).1 this
      simp only [List.lookup]
      rw [show (d == k) = false from beq_eq_false_iff_ne.mpr hk]
      exact ih (List.nodup_cons.1 hnd).2 htail

lemma lookup_eq_none_of_not_mem {l : List (ℕ × ℕ)} {d : ℕ}
    (h : d ∉ l.map Prod.fst) : l.lookup d = none := by
  induction l with
  | nil => rfl
  | cons p t ih =>
    obtain ⟨k, v⟩ := p
    have hk : d ≠ k := by
      intro heq
      exact h (by simp [heq])
    simp only [List.lookup]
    rw [show (d == k) = false from beq_eq_false_iff_ne.mpr hk]
    exact ih (fun hm => h (by simp [hm]))

lemma rrfCTE_keys_nodup {l : List ℕ} (h : l.Nodup) :
    ((rrfCTE l).map Prod.fst).Nodup := by
  rw [rrfCTE_keys]
  exact (List.take_sublist _ _).nodup h

/-- A document at the head of a ranking contributes `1/(60+1) = 1/61`. -/
lemma rrfTerm_head {l : List ℕ} {a : ℕ} (h : l.head? = some a) :
    rrfTerm l a = 1 / 61 := by
  cases l with
  | nil => cases h
  | cons x t =>
    rw [List.head?_cons, Option.some.injEq] at h
    subst h
    unfold rrfTerm rrfCTE
    rw [List.enum_cons]
    have h100 : (100 : ℕ) = 99 + 1 := rfl
    rw [List.map_cons, h100, List.take_succ_cons]
    simp only [List.lookup, beq_self_eq_true, if_pos rfl]
    unfold coalesceRRF
    norm_num

/-- A document absent from the capped list contributes 0. -/
lemma rrfTerm_not_mem {l : List ℕ} {d : ℕ} (h : d ∉ l.take 100) :
    rrfTerm l d = 0 := by
  unfold rrfTerm
  rw [lookup_eq_none_of_not_mem (by rw [rrfCTE_keys]; exact h)]
  rfl

/-- C2: every fused row's score is exactly the sum over the two methods of
`1/(60+rank)` (0 for a method whose capped list omits the document); every
document in either capped list yields a fused row; a document ranked 1 in
both lists scores `1/61 + 1/61`, strictly more than the `1/61` of a
document ranked 1 in just one list; and a document absent from both capped
lists never appears in any possible output. -/
theorem hybridSearch_rrf_score (bl vl : List ℕ) (hb : bl.Nodup)
    (hv : vl.Nodup) :
    (∀ r ∈ hybridRowsSQL bl vl, r.2 = rrfScore bl vl r.1) ∧
    (∀ d : ℕ, d ∈ bl.take 100 ∨ d ∈ vl.take 100 →
      d ∈ (hybridRowsSQL bl vl).map Prod.fst) ∧
    (∀ a : ℕ, bl.head? = some a → vl.head? = some a →
      rrfScore bl vl a = 1 / 61 + 1 / 61) ∧
    (∀ b : ℕ, bl.head? = some b → b ∉ vl.take 100 →
      rrfScore bl vl b = 1 / 61) ∧
    ((1 : ℚ) / 61 + 1 / 61 > 1 / 61) ∧
    (∀ (lim : ℕ) (out : List (ℕ × ℚ)) (d : ℕ),
      IsHybridOutput bl vl lim out → d ∉ bl.take 100 → d ∉ vl.take 100 →
      d ∉ out.map Prod.fst) := by
  refine ⟨?_, ?_, ?_, ?_, by norm_num, ?_⟩
  · intro r hr
    unfold hybridRowsSQL at hr
    obtain ⟨x, hx, rfl⟩ := List.mem_map.1 hr
    rcases List.mem_append.1 hx with hleft | hright
    · obtain ⟨p, hp, rfl⟩ := List.mem_map.1 hleft
      have hlb : (rrfCTE bl).lookup p.1 = some p.2 :=
        lookup_eq_some_of_mem (rrfCTE_keys_nodup hb) (by simpa using hp)
      unfold rrfScore rrfTerm
      rw [hlb]
    · obtain ⟨p, hp, rfl⟩ := List.mem_map.1 hright
      have hpf := List.mem_filter.1 hp
      have hlb : (rrfCTE bl).lookup p.1 = none :=
        Option.isNone_iff_eq_none.1 hpf.2
      have hlv : (rrfCTE vl).lookup p.1 = some p.2 :=
        lookup_eq_some_of_mem (rrfCTE_keys_nodup hv) (by simpa using hpf.1)
      unfold rrfScore rrfTerm
      rw [hlb, hlv]
  · intro d hd
    by_cases hdb : d ∈ bl.take 100
    · have hk : d ∈ (rrfCTE bl).map Prod.fst := by
        rw [rrfCTE_keys]; exact hdb
      obtain ⟨p, hp, hfst⟩ := List.mem_map.1 hk
      apply List.mem_map.2
      refine ⟨(p.1, coalesceRRF (some p.2) +
        coalesceRRF ((rrfCTE vl).lookup p.1)), ?_, by simpa using hfst⟩
      unfold hybridRowsSQL fullOuterRows
      apply List.mem_map.2
      exact ⟨(p.1, some p.2, (rrfCTE vl).lookup p.1),
        List.mem_append_left _ (List.mem_map.2 ⟨p, hp, rfl⟩), rfl⟩
    · rcases hd with hdb' | hdv
      · exact absurd hdb' hdb
      have hk : d ∈ (rrfCTE vl).map Prod.fst := by
        rw [rrfCTE_keys]; exact hdv
      obtain ⟨p, hp, hfst⟩ := List.mem_map.1 hk
      have hnone : (rrfCTE bl).lookup p.1 = none := by
        apply lookup_eq_none_of_not_mem
        rw [rrfCTE_keys, hfst]
        exact hdb
      apply List.mem_map.2
      refine ⟨(p.1, coalesceRRF none + coalesceRRF (some p.2)), ?_,
        by simpa using hfst⟩
      unfold hybridRowsSQL fullOuterRows
      apply List.mem_map.2
      refine ⟨(p.1, none, some p.2), List.mem_append_right _ ?_, rfl⟩
      apply List.mem_map.2
      refine ⟨p, List.mem_filter.2 ⟨hp, ?_⟩, rfl⟩
      rw [hnone]
      rfl
  · intro a ha hva
    unfold rrfScore
    rw [rrfTerm_head ha, rrfTerm_head hva]
  · intro b hbb hnv
    unfold rrfScore
    rw [rrfTerm_head hbb, rrfTerm_not_mem hnv, add_zero]
  · intro lim out d hout hdb hdv hmem
    obtain ⟨rows, hperm, _, rfl⟩ := hout
    obtain ⟨r, hr, hfst⟩ := List.mem_map.1 hmem
    have hr2 : r ∈ hybridRowsSQL bl vl :=
      hperm.subset ((List.take_sublist _ _).subset hr)
    unfold hybridRowsSQL at hr2
    obtain ⟨x, hx, rfl⟩ := List.mem_map.1 hr2
    rcases List.mem_append.1 hx with hleft | hright
    · obtain ⟨p, hp, rfl⟩ := List.mem_map.1 hleft
      apply hdb
      have hkm : p.1 ∈ (rrfCTE bl).map Prod.fst := List.mem_map.2 ⟨p, hp, rfl⟩
      rw [rrfCTE_keys] at hkm
      simp only at hfst
      exact hfst ▸ hkm
    · obtain ⟨p, hp, rfl⟩ := List.mem_map.1 hright
      apply hdv
      have hpv : p ∈ rrfCTE vl := List.mem_of_mem_filter hp
      have hkm : p.1 ∈ (rrfCTE vl).map Prod.fst := List.mem_map.2 ⟨p, hpv, rfl⟩
      rw [rrfCTE_keys] at hkm
      simp only at hfst
      exact hfst ▸ hkm

/-- Witness for C2 at the rankings `[1,2]` and `[1,3]`: document 1 is ranked
first in both and scores `2/61`. -/
theorem hybridSearch_rrf_score_witness :
    ([1, 2] : List ℕ).Nodup ∧ ([1, 3] : List ℕ).Nodup ∧
    rrfScore [1, 2] [1, 3] 1 = 1 / 61 + 1 / 61 ∧
    ((1 : ℚ) / 61 + 1 / 61 > 1 / 61) := by
  refine ⟨by decide, by decide, ?_, ?_⟩
  · exact (hybridSearch_rrf_score [1, 2] [1, 3] (by decide)
      (by decide)).2.2.1 1 rfl rfl
  · exact (hybridSearch_rrf_score [1, 2] [1, 3] (by decide)
      (by decide)).2.2.2.2.1

lemma hybridRows_example :
    hybridRowsSQL [1] [2] = [(1, 1 / 61), (2, 1 / 61)] := by
  have h : hybridRowsSQL [1] [2] =
      [(1, coalesceRRF (some 1) + coalesceRRF none),
       (2, coalesceRRF none + coalesceRRF (some 1))] := rfl
  rw [h]
  norm_num [coalesceRRF]

/-- C4 counterexample: for the rankings `[1]` and `[2]` the two fused rows
tie at score `1/61`; the SQL (`ORDER BY hybrid_score DESC` with no further
key) admits the output `[(2,1/61), (1,1/61)]`, which violates the claimed
id-ascending tie-break — the output order on ties is not determined. -/
theorem hybridSearch_tiebreak_counterexample :
    IsHybridOutput [1] [2] 10 [(2, 1 / 61), (1, 1 / 61)] ∧
    ¬ List.Pairwise specTieOrder [(2, (1 : ℚ) / 61), (1, 1 / 61)] := by
  constructor
  · refine ⟨[(2, 1 / 61), (1, 1 / 61)], ?_, ?_, rfl⟩
    · rw [hybridRows_example]
      exact List.Perm.swap _ _ _
    · unfold ScoreSortedDesc
      refine List.pairwise_cons.2 ⟨?_, ?_⟩
      · intro b hb
        rw [List.mem_singleton.1 hb]
      · exact List.pairwise_singleton _ _
  · intro h
    have hrel := (List.pairwise_cons.1 h).1 (1, 1 / 61) (by simp)
    rcases hrel with hlt | ⟨_, hle⟩
    · exact absurd hlt (by norm_num)
    · omega

/-- C4 amended: every possible hybrid-search result list is the fused rows
sorted by score descending and truncated to `limit` — each returned row is a
fused row, scores are weakly descending, and at most `limit` rows are
returned — but the relative order of rows with equal fused scores is left
unspecified by the query (no id tie-break, no determinism on ties). -/
theorem hybridSearch_sorted_truncated (bl vl : List ℕ) (lim : ℕ)
    (out : List (ℕ × ℚ)) (h : IsHybridOutput bl vl lim out) :
    ScoreSortedDesc out ∧ out.length ≤ lim ∧
    ∀ r ∈ out, r ∈ hybridRowsSQL bl vl := by
  obtain ⟨rows, hperm, hsort, rfl⟩ := h
  refine ⟨List.Pairwise.sublist (List.take_sublist _ _) hsort, ?_, ?_⟩
  · rw [List.length_take]
    exact min_le_left _ _
  · intro r hr
    exact hperm.subset ((List.take_sublist _ _).subset hr)

/-- Witness for C4 amended at the rankings `[1]`, `[2]` with the
id-ascending tied output. -/
theorem hybridSearch_sorted_truncated_witness :
    IsHybridOutput [1] [2] 10 [(1, (1 : ℚ) / 61), (2, 1 / 61)] ∧
    ScoreSortedDesc [(1, (1 : ℚ) / 61), (2, 1 / 61)] ∧
    ([(1, (1 : ℚ) / 61), (2, 1 / 61)]).length ≤ 10 := by
  have hout : IsHybridOutput [1] [2] 10 [(1, (1 : ℚ) / 61), (2, 1 / 61)] := by
    refine ⟨[(1, 1 / 61), (2, 1 / 61)], ?_, ?_, rfl⟩
    · rw [hybridRows_example]
    · unfold ScoreSortedDesc
      refine List.pairwise_cons.2 ⟨?_, ?_⟩
      · intro b hb
        rw [List.mem_singleton.1 hb]
      · exact List.pairwise_singleton _ _
  exact ⟨hout, (hybridSearch_sorted_truncated [1] [2] 10 _ hout).1,
    (hybridSearch_sorted_truncated [1] [2] 10 _ hout).2.1⟩

/-! ## Search service data model (search.ts, `types.ts`)

Scores are exact decimal literals in the source and are modelled as `ℚ`.
Document-store rows are oracle inputs; `Except Unit` distinguishes a thrown
store error from returned rows. -/

/-- The metadata shape used by the sample corpus
(`category`/`difficulty`/`tags`). -/
structure DocMetadata where
  category : List Char
  difficulty : List Char
  tags : List (List Char)

/-- The `SearchResult` record (types.ts lines 39-48). -/
structure SearchResult where
  id : List Char
  title : List Char
  content : List Char
  bm25Score : ℚ
  vectorScore : ℚ
  hybridScore : ℚ
  score : ℚ
  metadata : DocMetadata

/-- A row returned by the `bm25Search` SQL template. -/
structure BRow where
  id : List Char
  title : List Char
  content : List Char
  bm25_score : ℚ
  metadata : DocMetadata

/-- A row returned by the `vectorSearch` SQL template. -/
structure VRow where
  id : List Char
  title : List Char
  content : List Char
  similarity_score : ℚ
  metadata : DocMetadata

/-- A row returned by the `hybridSearch` SQL template. -/
structure HRow where
  id : List Char
  title : List Char
  content : List Char
  bm25_score : ℚ
  vector_score : ℚ
  hybrid_score : ℚ
  metadata : DocMetadata

/-- A document of the built-in sample corpus. -/
structure SampleDoc where
  id : List Char
  title : List Char
  content : List Char
  metadata : DocMetadata

/-- The five built-in sample documents (search.ts lines 324-355). -/
def sampleDocs : List SampleDoc :=
  [ { id := "sample-1".toList
    , title := "Zero-Copy Database Forks".toList
    , content := "Zero-copy database forks are an advanced database technique that allows creating copies of database instances without physically duplicating the underlying data files. Instead of copying all data blocks, zero-copy forks use copy-on-write semantics where the forked database shares the same physical storage until modifications occur. This approach dramatically reduces the time and storage space required to create database copies for testing, development, or analytics workloads. Popular implementations include PostgreSQL with pg_basebackup, MySQL with binary logs, and specialized systems like Neon and PlanetScale that built zero-copy branching into their architecture from the ground up.".toList
    , metadata := { category := "database".toList, difficulty := "advanced".toList
                  , tags := ["fork".toList, "zero-copy".toList, "performance".toList] } }
  , { id := "sample-2".toList
    , title := "Database Performance Optimization".toList
    , content := "Database performance optimization involves multiple strategies including indexing, query optimization, connection pooling, and caching mechanisms. Proper indexing is crucial for fast query execution, while query optimization ensures efficient SQL execution plans. Connection pooling reduces the overhead of establishing database connections, and caching layers like Redis can dramatically reduce database load by storing frequently accessed data in memory. Additional techniques include database sharding, read replicas, and query result caching.".toList
    , metadata := { category := "database".toList, difficulty := "intermediate".toList
                  , tags := ["performance".toList, "optimization".toList, "indexing".toList] } }
  , { id := "sample-3".toList
    , title := "Multi-Agent Database Orchestration".toList
    , content := "Multi-agent database orchestration involves coordinating multiple autonomous agents to manage database operations, schema changes, and data workflows. This approach enables distributed decision-making for database management tasks, where ETL agents handle data extraction and transformation, search agents manage query optimization, analyst agents perform data analysis, and DBA agents execute schema modifications. The orchestration system uses workflow engines like LangGraph to coordinate agent interactions and ensure consistent database state across operations.".toList
    , metadata := { category := "orchestration".toList, difficulty := "advanced".toList
                  , tags := ["agents".toList, "workflow".toList, "coordination".toList] } }
  , { id := "sample-4".toList
    , title := "Hybrid Search Implementation".toList
    , content := "Hybrid search combines traditional full-text search (BM25) with modern vector similarity search to provide more accurate and contextually relevant results. BM25 excels at exact keyword matching and term frequency analysis, while vector search using embeddings captures semantic meaning and context. The combination uses techniques like Reciprocal Rank Fusion (RRF) to merge results from both approaches, typically achieving better precision and recall than either method alone. Implementation often involves PostgreSQL with pgvector extension for vector operations.".toList
    , metadata := { category := "search".toList, difficulty := "advanced".toList
                  , tags := ["hybrid".toList, "bm25".toList, "vector".toList, "embeddings".toList] } }
  , { id := "sample-5".toList
    , title := "Database Fork Management".toList
    , content := "Database fork management involves creating, maintaining, and merging database branches for development, testing, and analytics purposes. Modern database platforms provide APIs for programmatic fork creation, allowing developers to spin up isolated database copies for feature development or data analysis. Fork management includes handling schema migrations, data synchronization, conflict resolution, and automated cleanup of unused forks. Advanced platforms offer zero-downtime merging and rollback capabilities.".toList
    , metadata := { category := "database".toList, difficulty := "intermediate".toList
                  , tags := ["fork".toList, "management".toList, "branching".toList] } }
  ]

/-- The relevance filter of `getSampleSearchResults` (search.ts lines
358-363): keep documents whose title, content, or a metadata tag contains
the lower-cased query as a substring. -/
def sampleMatches (queryLower : List Char) (d : SampleDoc) : Bool :=
  jsIncludes (jsToLower d.title) queryLower ||
  jsIncludes (jsToLower d.content) queryLower ||
  d.metadata.tags.any (fun tag => jsIncludes (jsToLower tag) queryLower)

/-- Model of `docsToReturn` (search.ts lines 357-366): the filtered docs, or all five
when nothing matches. -/
def sampleCandidates (query : List Char) : List SampleDoc :=
  let filteredDocs := sampleDocs.filter (sampleMatches (jsToLower query))
  if filteredDocs.length > 0 then filteredDocs else sampleDocs

/-- The result synthesized for the sample document at 0-based output
position `i` (search.ts lines 368-377). -/
def sampleResultAt (i : ℕ) (d : SampleDoc) : SearchResult :=
  { id := d.id, title := d.title, content := d.content
  , bm25Score := 0.9 - (i : ℚ) * 0.1
  , vectorScore := 0.85 - (i : ℚ) * 0.1
  , hybridScore := 0.9 - (i : ℚ) * 0.1
  , score := 0.9 - (i : ℚ) * 0.1
  , metadata := d.metadata }

/-- Model of `.map((doc, index) => ...)` with a running 0-based index. -/
def mapWithIndex : ℕ → List SampleDoc → List SearchResult
  | _, [] => []
  | i, d :: ds => sampleResultAt i d :: mapWithIndex (i + 1) ds

/-- Model of `getSampleSearchResults(query, limit)` (lines 323-378). -/
def getSampleSearchResults (query : List Char) (limit : ℕ) : List SearchResult :=
  mapWithIndex 0 ((sampleCandidates query).take limit)

/-- The result built from one store row in `bm25Search`
(search.ts lines 304-313). -/
def bm25RowResult (r : BRow) : SearchResult :=
  { id := r.id, title := r.title, content := r.content
  , bm25Score := r.bm25_score, vectorScore := 0
  , hybridScore := r.bm25_score, score := r.bm25_score
  , metadata := r.metadata }

/-- Model of `bm25Search(query, limit)` (search.ts lines 293-318): maps store rows,
and serves the sample corpus both when the store returns no rows and when
the store query throws. -/
def bm25Search (store : Except Unit (List BRow)) (query : List Char)
    (limit : ℕ) : List SearchResult :=
  match store with
  | .error _ => getSampleSearchResults query limit
  | .ok [] => getSampleSearchResults query limit
  | .ok rows => rows.map bm25RowResult

/-- Model of `isVectorSearchSupported` (search.ts lines 383-403): true exactly when
the probe query succeeds, returns at least one row, and the first row's
`data_type` is `USER-DEFINED`; a probe error yields false. -/
def isVectorSearchSupported (probe : Except Unit (List (List Char))) : Bool :=
  match probe with
  | .error _ => false
  | .ok [] => false
  | .ok (dataType :: _) => decide (dataType = "USER-DEFINED".toList)

/-- The outcomes of every external call a search can make. -/
structure SearchWorld where
  probeRows : Except Unit (List (List Char))
  apiKey : Option (List Char)
  cached : Option (List ℝ)
  provider : ProviderOutcome
  bm25Rows : Except Unit (List BRow)
  vectorRows : Except Unit (List VRow)
  hybridRows : Except Unit (List HRow)

/-- Model of `vectorSearch(query, limit)` (lines 408-435): probe gate, then
embedding, then store query; any failure returns `bm25Search`'s result. -/
noncomputable def vectorSearch (w : SearchWorld) (query : List Char)
    (limit : ℕ) : List SearchResult :=
  if ! isVectorSearchSupported w.probeRows then bm25Search w.bm25Rows query limit
  else
    match generateEmbedding w.apiKey w.cached w.provider query with
    | .error _ => bm25Search w.bm25Rows query limit
    | .ok _ =>
      match w.vectorRows with
      | .error _ => bm25Search w.bm25Rows query limit
      | .ok rows => rows.map (fun r =>
          { id := r.id, title := r.title, content := r.content
          , bm25Score := 0, vectorScore := r.similarity_score
          , hybridScore := r.similarity_score, score := r.similarity_score
          , metadata := r.metadata })

/-- Model of `hybridSearch(query, limit)` (lines 440-471): same shape as
`vectorSearch`, using the hybrid SQL template. -/
noncomputable def hybridSearch (w : SearchWorld) (query : List Char)
    (limit : ℕ) : List SearchResult :=
  if ! isVectorSearchSupported w.probeRows then bm25Search w.bm25Rows query limit
  else
    match generateEmbedding w.apiKey w.cached w.provider query with
    | .error _ => bm25Search w.bm25Rows query limit
    | .ok _ =>
      match w.hybridRows with
      | .error _ => bm25Search w.bm25Rows query limit
      | .ok rows => rows.map (fun r =>
          { id := r.id, title := r.title, content := r.content
          , bm25Score := r.bm25_score, vectorScore := r.vector_score
          , hybridScore := r.hybrid_score, score := r.hybrid_score
          , metadata := r.metadata })

/-- C3: `vectorSearch` and `hybridSearch` are total functions of the
external outcomes (they never surface a failure): a failed capability probe
reports no vector support; without vector support both return exactly
`bm25Search`'s output for the same query and limit; an embedding failure
gives `bm25Search`'s output; and a store failure in the later query also
gives `bm25Search`'s output. -/
theorem search_degrades_to_bm25 (w : SearchWorld) (q : List Char) (lim : ℕ) :
    (w.probeRows = .error () → isVectorSearchSupported w.probeRows = false) ∧
    (isVectorSearchSupported w.probeRows = false →
      vectorSearch w q lim = bm25Search w.bm25Rows q lim ∧
      hybridSearch w q lim = bm25Search w.bm25Rows q lim) ∧
    (∀ msg, generateEmbedding w.apiKey w.cached w.provider q = .error msg →
      vectorSearch w q lim = bm25Search w.bm25Rows q lim ∧
      hybridSearch w q lim = bm25Search w.bm25Rows q lim) ∧
    (w.vectorRows = .error () →
      vectorSearch w q lim = bm25Search w.bm25Rows q lim) ∧
    (w.hybridRows = .error () →
      hybridSearch w q lim = bm25Search w.bm25Rows q lim) := by
  refine ⟨?_, ?_, ?_, ?_, ?_⟩
  · intro h
    rw [h]
    rfl
  · intro h
    unfold vectorSearch hybridSearch
    rw [h]
    exact ⟨rfl, rfl⟩
  · intro msg h
    unfold vectorSearch hybridSearch
    cases hs : isVectorSearchSupported w.probeRows with
    | false => exact ⟨rfl, rfl⟩
    | true =>
      rw [h]
      exact ⟨rfl, rfl⟩
  · intro h
    unfold vectorSearch
    cases hs : isVectorSearchSupported w.probeRows with
    | false => rfl
    | true =>
      cases hg : generateEmbedding w.apiKey w.cached w.provider q with
      | error msg => rfl
      | ok e =>
        rw [h]
        rfl
  · intro h
    unfold hybridSearch
    cases hs : isVectorSearchSupported w.probeRows with
    | false => rfl
    | true =>
      cases hg : generateEmbedding w.apiKey w.cached w.provider q with
      | error msg => rfl
      | ok e =>
        rw [h]
        rfl

/-- A concrete world for the C3 witness: probe confirms vector support, the
provider fails authentication, and both later store queries throw. -/
noncomputable def degradedWorld : SearchWorld :=
  { probeRows := .ok ["USER-DEFINED".toList]
  , apiKey := some "sk-test".toList
  , cached := none
  , provider := .httpError 401 "Unauthorized".toList
  , bm25Rows := .ok []
  , vectorRows := .error ()
  , hybridRows := .error () }

/-- Witness for C3: in `degradedWorld` (embedding fails with an auth error,
stores throw) both searches return `bm25Search`'s output. -/
theorem search_degrades_to_bm25_witness :
    generateEmbedding degradedWorld.apiKey degradedWorld.cached
      degradedWorld.provider "hi".toList = .error authFailMsg ∧
    vectorSearch degradedWorld "hi".toList 10 =
      bm25Search degradedWorld.bm25Rows "hi".toList 10 ∧
    hybridSearch degradedWorld "hi".toList 10 =
      bm25Search degradedWorld.bm25Rows "hi".toList 10 := by
  have hgen : generateEmbedding degradedWorld.apiKey degradedWorld.cached
      degradedWorld.provider "hi".toList = .error authFailMsg := rfl
  exact ⟨hgen,
    ((search_degrades_to_bm25 degradedWorld "hi".toList 10).2.2.1
      authFailMsg hgen).1,
    ((search_degrades_to_bm25 degradedWorld "hi".toList 10).2.2.1
      authFailMsg hgen).2⟩

lemma mapWithIndex_length (i : ℕ) (ds : List SampleDoc) :
    (mapWithIndex i ds).length = ds.length := by
  induction ds generalizing i with
  | nil => rfl
  | cons d t ih => simp [mapWithIndex, ih]

lemma mem_mapWithIndex {r : SearchResult} {i : ℕ} {ds : List SampleDoc}
    (h : r ∈ mapWithIndex i ds) : ∃ j d, d ∈ ds ∧ r = sampleResultAt j d := by
  induction ds generalizing i with
  | nil => cases h
  | cons d t ih =>
    rcases List.mem_cons.1 h with h1 | h2
    · exact ⟨i, d, List.mem_cons_self _ _, h1⟩
    · obtain ⟨j, d', hd', hr⟩ := ih h2
      exact ⟨j, d', List.mem_cons_of_mem _ hd', hr⟩

lemma mapWithIndex_bm25_le (i : ℕ) (ds : List SampleDoc) :
    ∀ r ∈ mapWithIndex i ds, r.bm25Score ≤ 0.9 - (i : ℚ) * 0.1 := by
  induction ds generalizing i with
  | nil => intro r h; cases h
  | cons d t ih =>
    intro r h
    rcases List.mem_cons.1 h with h1 | h2
    · rw [h1]
      exact le_refl _
    · have hle := ih (i + 1) r h2
      push_cast at hle
      linarith

lemma mapWithIndex_sorted (i : ℕ) (ds : List SampleDoc) :
    (mapWithIndex i ds).Pairwise (fun a b => b.bm25Score ≤ a.bm25Score) := by
  induction ds generalizing i with
  | nil => exact List.Pairwise.nil
  | cons d t ih =>
    refine List.pairwise_cons.2 ⟨?_, ih (i + 1)⟩
    intro b hb
    have hle := mapWithIndex_bm25_le (i + 1) t b hb
    have hd : (sampleResultAt i d).bm25Score = 0.9 - (i : ℚ) * 0.1 := rfl
    rw [hd]
    push_cast at hle
    linarith

lemma sampleCandidates_subset (q : List Char) :
    ∀ d ∈ sampleCandidates q, d ∈ sampleDocs := by
  intro d hd
  unfold sampleCandidates at hd
  by_cases hc : (sampleDocs.filter (sampleMatches (jsToLower q))).length > 0
  · rw [if_pos hc] at hd
    exact List.mem_of_mem_filter hd
  · rw [if_neg hc] at hd
    exact hd

lemma getSample_head (q : List Char) (n : ℕ) :
    ∃ d, d ∈ sampleDocs ∧
      (getSampleSearchResults q (n + 1)).head? = some (sampleResultAt 0 d) := by
  unfold getSampleSearchResults
  have hne : sampleCandidates q ≠ [] := by
    unfold sampleCandidates
    by_cases hc : (sampleDocs.filter (sampleMatches (jsToLower q))).length > 0
    · rw [if_pos hc]
      exact List.length_pos.1 hc
    · rw [if_neg hc]
      unfold sampleDocs
      exact List.cons_ne_nil _ _
  obtain ⟨d, t, hdt⟩ := List.exists_cons_of_ne_nil hne
  refine ⟨d, ?_, ?_⟩
  · have hmem : d ∈ sampleCandidates q := by
      rw [hdt]
      exact List.mem_cons_self _ _
    exact sampleCandidates_subset q d hmem
  · rw [hdt, List.take_succ_cons]
    rfl

/-- C6 counterexample: with an empty document store, the first result of
`bm25Search("fork", 10)` carries `vectorScore = 0.85`, not the claimed 0 —
the sample-fallback path synthesizes nonzero vector scores. -/
theorem bm25Search_fallback_vectorScore_counterexample :
    ((bm25Search (.ok []) "fork".toList 10).map
      (fun r => r.vectorScore)).head? = some 0.85 ∧ (0.85 : ℚ) ≠ 0 := by
  constructor
  · obtain ⟨d, _, hh⟩ := getSample_head "fork".toList 9
    show ((getSampleSearchResults "fork".toList 10).map
      (fun r => r.vectorScore)).head? = some 0.85
    rw [List.head?_map, hh]
    simp [sampleResultAt]
  · norm_num

/-- C6 amended: on store rows, every result has `vectorScore = 0` and
`hybridScore = bm25Score`, and store-sorted rows stay ranked descending by
`bm25Score`; a store error or empty result set yields the sample fallback
list (never a thrown error), whose results satisfy
`hybridScore = bm25Score` but carry `vectorScore = bm25Score - 1/20 ≠ 0`,
still ranked descending by `bm25Score`. -/
theorem bm25Search_score_fields (store : Except Unit (List BRow))
    (q : List Char) (lim : ℕ) :
    (∀ rows : List BRow, rows ≠ [] → store = .ok rows →
      bm25Search store q lim = rows.map bm25RowResult ∧
      (∀ r ∈ rows.map bm25RowResult,
        r.vectorScore = 0 ∧ r.hybridScore = r.bm25Score) ∧
      (rows.Pairwise (fun a b => b.bm25_score ≤ a.bm25_score) →
        (rows.map bm25RowResult).Pairwise
          (fun a b => b.bm25Score ≤ a.bm25Score))) ∧
    ((store = .error () ∨ store = .ok []) →
      bm25Search store q lim = getSampleSearchResults q lim ∧
      (∀ r ∈ getSampleSearchResults q lim,
        r.hybridScore = r.bm25Score ∧ r.vectorScore = r.bm25Score - 1 / 20) ∧
      (getSampleSearchResults q lim).Pairwise
        (fun a b => b.bm25Score ≤ a.bm25Score)) := by
  constructor
  · intro rows hne hstore
    subst hstore
    refine ⟨?_, ?_, ?_⟩
    · cases rows with
      | nil => exact absurd rfl hne
      | cons r t => rfl
    · intro r hr
      obtain ⟨b, _, rfl⟩ := List.mem_map.1 hr
      exact ⟨rfl, rfl⟩
    · intro hsorted
      exact hsorted.map bm25RowResult (fun a b h => h)
  · intro hstore
    have heq : bm25Search store q lim = getSampleSearchResults q lim := by
      rcases hstore with h | h <;> rw [h] <;> rfl
    refine ⟨heq, ?_, mapWithIndex_sorted 0 _⟩
    intro r hr
    obtain ⟨j, d, _, rfl⟩ := mem_mapWithIndex hr
    refine ⟨rfl, ?_⟩
    show (0.85 : ℚ) - (j : ℚ) * 0.1 = 0.9 - (j : ℚ) * 0.1 - 1 / 20
    ring_nf

/-- A concrete store row for the C6 witness. -/
def sampleBRow : BRow :=
  { id := "d1".toList, title := "t".toList, content := "c".toList
  , bm25_score := 1 / 2
  , metadata := { category := [], difficulty := [], tags := [] } }

/-- Witness for C6 amended: one store row, and the empty store, at concrete
inputs. -/
theorem bm25Search_score_fields_witness :
    bm25Search (.ok [sampleBRow]) "q".toList 10 =
      [bm25RowResult sampleBRow] ∧
    bm25Search (.ok []) "q".toList 10 =
      getSampleSearchResults "q".toList 10 := by
  constructor
  · exact ((bm25Search_score_fields (.ok [sampleBRow]) "q".toList 10).1
      [sampleBRow] (by simp) rfl).1
  · exact ((bm25Search_score_fields (.ok []) "q".toList 10).2
      (Or.inr rfl)).1

/-- C10: whenever the store's keyword query returns zero rows or throws and
`limit ≥ 1`, `bm25Search` returns the sample fallback list, which is
non-empty, has at most `limit` entries, draws its ids from the five built-in
sample documents (`sample-1` … `sample-5`, chosen by the substring filter of
`sampleCandidates`, or all five when nothing matches), starts at score 0.9,
and decreases by 0.1 per position — never an empty list. -/
theorem bm25Search_fallback_nonempty (q : List Char) (lim : ℕ)
    (hlim : 1 ≤ lim) (store : Except Unit (List BRow))
    (hstore : store = .error () ∨ store = .ok []) :
    bm25Search store q lim = getSampleSearchResults q lim ∧
    getSampleSearchResults q lim ≠ [] ∧
    (getSampleSearchResults q lim).length ≤ lim ∧
    sampleDocs.map (fun d => d.id) =
      ["sample-1".toList, "sample-2".toList, "sample-3".toList,
       "sample-4".toList, "sample-5".toList] ∧
    (∀ r ∈ getSampleSearchResults q lim,
      r.id ∈ sampleDocs.map (fun d => d.id)) ∧
    ((getSampleSearchResults q lim).map (fun r => r.bm25Score)).head? =
      some 0.9 ∧
    (∀ r ∈ getSampleSearchResults q lim,
      ∃ j d, d ∈ sampleDocs ∧ r = sampleResultAt j d ∧
        r.bm25Score = 0.9 - (j : ℚ) * 0.1) := by
  obtain ⟨n, rfl⟩ : ∃ n, lim = n + 1 := ⟨lim - 1, by omega⟩
  obtain ⟨dh, hdh, hhead⟩ := getSample_head q n
  refine ⟨?_, ?_, ?_, rfl, ?_, ?_, ?_⟩
  · rcases hstore with h | h <;> rw [h] <;> rfl
  · intro hnil
    rw [hnil] at hhead
    cases hhead
  · unfold getSampleSearchResults
    rw [mapWithIndex_length, List.length_take]
    exact min_le_left _ _
  · intro r hr
    obtain ⟨j, d, hd, rfl⟩ := mem_mapWithIndex hr
    have hd' : d ∈ sampleDocs :=
      sampleCandidates_subset q d ((List.take_sublist _ _).subset hd)
    exact List.mem_map.2 ⟨d, hd', rfl⟩
  · rw [List.head?_map, hhead]
    simp [sampleResultAt]
  · intro r hr
    obtain ⟨j, d, hd, rfl⟩ := mem_mapWithIndex hr
    have hd' : d ∈ sampleDocs :=
      sampleCandidates_subset q d ((List.take_sublist _ _).subset hd)
    exact ⟨j, d, hd', rfl, rfl⟩

/-- Witness for C10 at the query `"fork"`, limit 3 and an empty store. -/
theorem bm25Search_fallback_nonempty_witness :
    bm25Search (.ok []) "fork".toList 3 =
      getSampleSearchResults "fork".toList 3 ∧
    getSampleSearchResults "fork".toList 3 ≠ [] ∧
    (getSampleSearchResults "fork".toList 3).length ≤ 3 ∧
    ((getSampleSearchResults "fork".toList 3).map
      (fun r => r.bm25Score)).head? = some 0.9 := by
  have h := bm25Search_fallback_nonempty "fork".toList 3 (by norm_num)
    (.ok []) (Or.inr rfl)
  exact ⟨h.1, h.2.1, h.2.2.1, h.2.2.2.2.2.1⟩

/-! ## Batch document indexing (`batchIndexDocuments`, search.ts lines
518-553)

`indexDocument` rethrows every failure (search.ts lines 509-512), so its
outcome per input document is an oracle `DocInput → Except err id`.  Each
batch runs `Promise.all` over its (up to 10) documents: it resolves to the
ids in input order when all succeed and rejects when any fails (the model
returns the first-in-input-order rejection; which of the failing documents'
errors is surfaced does not affect any claim).  The outer `try/catch` logs
and rethrows, so a rejection aborts the whole call.  The inter-batch
`setTimeout` pause affects timing only and has no functional content. -/

/-- A document passed to `batchIndexDocuments`. -/
structure DocInput where
  title : List Char
  content : List Char
  metadata : Option DocMetadata

/-- Model of `Promise.all(batch.map(doc => indexDocument(...)))`. -/
def processBatch (indexOutcome : DocInput → Except (List Char) (List Char)) :
    List DocInput → Except (List Char) (List (List Char))
  | [] => .ok []
  | d :: t =>
    match indexOutcome d, processBatch indexOutcome t with
    | .error e, _ => .error e
    | .ok _, .error e => .error e
    | .ok i, .ok ids => .ok (i :: ids)

/-- The batching loop: `for (i = 0; i < docs.length; i += 10)` over slices
`docs.slice(i, i + 10)`, accumulating ids, aborting on the first rejected
batch. -/
def batchIndexLoop (indexOutcome : DocInput → Except (List Char) (List Char))
    (docs : List DocInput) : Except (List Char) (List (List Char)) :=
  if docs.length = 0 then .ok []
  else
    match processBatch indexOutcome (docs.take 10) with
    | .error e => .error e
    | .ok ids =>
      match batchIndexLoop indexOutcome (docs.drop 10) with
      | .error e => .error e
      | .ok rest => .ok (ids ++ rest)
  termination_by docs.length
  decreasing_by
    simp [List.length_drop]
    omega

/-- Model of `batchIndexDocuments(documents)`: the loop, with the outer catch
rethrowing any error (search.ts lines 549-552). -/
def batchIndexDocuments
    (indexOutcome : DocInput → Except (List Char) (List Char))
    (docs : List DocInput) : Except (List Char) (List (List Char)) :=
  batchIndexLoop indexOutcome docs

lemma processBatch_all_ok
    {indexOutcome : DocInput → Except (List Char) (List Char)}
    {b : List DocInput} (h : ∀ d ∈ b, ∃ i, indexOutcome d = .ok i) :
    processBatch indexOutcome b =
      .ok (b.filterMap (fun d => (indexOutcome d).toOption)) := by
  induction b with
  | nil => rfl
  | cons d t ih =>
    obtain ⟨i, hi⟩ := h d (List.mem_cons_self _ _)
    have ht := ih (fun d' hd' => h d' (List.mem_cons_of_mem _ hd'))
    simp [processBatch, hi, ht, List.filterMap_cons, Except.toOption]

lemma processBatch_err
    {indexOutcome : DocInput → Except (List Char) (List Char)}
    {b : List DocInput} {d : DocInput} (hd : d ∈ b)
    (hf : ∀ i, indexOutcome d ≠ .ok i) :
    ∃ e, processBatch indexOutcome b = .error e := by
  induction b with
  | nil => cases hd
  | cons d' t ih =>
    rcases List.mem_cons.1 hd with rfl | ht
    · cases ho : indexOutcome d with
      | error e => exact ⟨e, by simp [processBatch, ho]⟩
      | ok i => exact absurd ho (hf i)
    · cases ho : indexOutcome d' with
      | error e => exact ⟨e, by simp [processBatch, ho]⟩
      | ok i =>
        obtain ⟨e, he⟩ := ih ht
        exact ⟨e, by simp [processBatch, ho, he]⟩

lemma batchIndexLoop_all_ok
    (indexOutcome : DocInput → Except (List Char) (List Char)) :
    ∀ docs : List DocInput, (∀ d ∈ docs, ∃ i, indexOutcome d = .ok i) →
      batchIndexLoop indexOutcome docs =
        .ok (docs.filterMap (fun d => (indexOutcome d).toOption)) := by
  suffices H : ∀ (n : ℕ) (docs : List DocInput), docs.length ≤ n →
      (∀ d ∈ docs, ∃ i, indexOutcome d = .ok i) →
      batchIndexLoop indexOutcome docs =
        .ok (docs.filterMap (fun d => (indexOutcome d).toOption)) by
    exact fun docs h => H docs.length docs le_rfl h
  intro n
  induction n with
  | zero =>
    intro docs hlen _
    have hnil : docs = [] := List.eq_nil_of_length_eq_zero (Nat.le_zero.1 hlen)
    subst hnil
    unfold batchIndexLoop
    simp
  | succ n ih =>
    intro docs hlen hok
    by_cases hnil : docs = []
    · subst hnil
      unfold batchIndexLoop
      simp
    · have h1 := processBatch_all_ok
        (fun d hd => hok d ((List.take_sublist 10 docs).subset hd))
      have hlt : (docs.drop 10).length ≤ n := by
        have hpos : 0 < docs.length := List.length_pos.2 hnil
        rw [List.length_drop]
        omega
      have h2 := ih (docs.drop 10) hlt
        (fun d hd => hok d ((List.drop_sublist 10 docs).subset hd))
      have hlen0 : ¬ (docs.length = 0) := by
        simpa [List.length_eq_zero] using hnil
      unfold batchIndexLoop
      rw [if_neg hlen0]
      simp only [h1, h2]
      rw [← List.filterMap_append, List.take_append_drop]

lemma batchIndexLoop_err
    (indexOutcome : DocInput → Except (List Char) (List Char)) :
    ∀ (docs : List DocInput) (d : DocInput), d ∈ docs →
      (∀ i, indexOutcome d ≠ .ok i) →
      ∃ e, batchIndexLoop indexOutcome docs = .error e := by
  suffices H : ∀ (n : ℕ) (docs : List DocInput) (d : DocInput),
      docs.length ≤ n → d ∈ docs → (∀ i, indexOutcome d ≠ .ok i) →
      ∃ e, batchIndexLoop indexOutcome docs = .error e by
    exact fun docs d hd hf => H docs.length docs d le_rfl hd hf
  intro n
  induction n with
  | zero =>
    intro docs d hlen hd _
    have hnil : docs = [] := List.eq_nil_of_length_eq_zero (Nat.le_zero.1 hlen)
    subst hnil
    cases hd
  | succ n ih =>
    intro docs d hlen hd hf
    have hnil : docs ≠ [] := fun h => by subst h; cases hd
    have hd' : d ∈ docs.take 10 ++ docs.drop 10 := by
      rw [List.take_append_drop]
      exact hd
    have hlen0 : ¬ (docs.length = 0) := by
      simpa [List.length_eq_zero] using hnil
    rcases List.mem_append.1 hd' with htake | hdrop
    · obtain ⟨e, he⟩ := processBatch_err htake hf
      exact ⟨e, by unfold batchIndexLoop; rw [if_neg hlen0]; simp [he]⟩
    · have hlt : (docs.drop 10).length ≤ n := by
        have hpos : 0 < docs.length := List.length_pos.2 hnil
        rw [List.length_drop]
        omega
      obtain ⟨e2, he2⟩ := ih (docs.drop 10) d hlt hdrop hf
      cases hpb : processBatch indexOutcome (docs.take 10) with
      | error e =>
        exact ⟨e, by unfold batchIndexLoop; rw [if_neg hlen0]; simp [hpb]⟩
      | ok ids =>
        exact ⟨e2, by unfold batchIndexLoop; rw [if_neg hlen0]; simp [hpb, he2]⟩

/-- A document whose indexing fails, for the C5 counterexample. -/
def cexDocBad : DocInput :=
  { title := "bad".toList, content := "c".toList, metadata := none }

/-- A document whose indexing succeeds, for the C5 counterexample. -/
def cexDocGood : DocInput :=
  { title := "good".toList, content := "c".toList, metadata := none }

/-- An indexing oracle that fails exactly on `cexDocBad` and returns the
title as id otherwise. -/
def cexIndexOutcome (d : DocInput) : Except (List Char) (List Char) :=
  if d.title = "bad".toList then .error "insert failed".toList
  else .ok d.title

/-- C5 counterexample: when the first of two documents fails to index,
`batchIndexDocuments` throws — it returns no id list at all, so the id of
the second (successfully indexable) document is not returned. -/
theorem batchIndexDocuments_aborts_counterexample :
    batchIndexDocuments cexIndexOutcome [cexDocBad, cexDocGood] =
      .error "insert failed".toList ∧
    (∀ ids, batchIndexDocuments cexIndexOutcome [cexDocBad, cexDocGood] ≠
      .ok ids) ∧
    cexIndexOutcome cexDocGood = .ok "good".toList := by
  have h : batchIndexDocuments cexIndexOutcome [cexDocBad, cexDocGood] =
      .error "insert failed".toList := by
    unfold batchIndexDocuments batchIndexLoop
    rfl
  refine ⟨h, ?_, rfl⟩
  intro ids hids
  rw [h] at hids
  cases hids

/-- C5 amended: `batchIndexDocuments` processes its input in batches of 10
(each batch via one `Promise.all`), and when every document indexes
successfully it returns all ids in input order; but a failure on any one
document makes the whole call throw — no ids are returned and the remaining
batches are abandoned, rather than the failure being recorded per-item. -/
theorem batchIndexDocuments_abort_semantics
    (indexOutcome : DocInput → Except (List Char) (List Char))
    (docs : List DocInput) :
    ((∀ d ∈ docs, ∃ i, indexOutcome d = .ok i) →
      batchIndexDocuments indexOutcome docs =
        .ok (docs.filterMap (fun d => (indexOutcome d).toOption))) ∧
    (∀ d ∈ docs, (∀ i, indexOutcome d ≠ .ok i) →
      ∃ e, batchIndexDocuments indexOutcome docs = .error e) := by
  constructor
  · intro h
    exact batchIndexLoop_all_ok indexOutcome docs h
  · intro d hd hf
    exact batchIndexLoop_err indexOutcome docs d hd hf

/-- Witness for C5 amended: an all-success run returns the ids, and the
counterexample input yields an error. -/
theorem batchIndexDocuments_abort_semantics_witness :
    batchIndexDocuments cexIndexOutcome [cexDocGood] =
      .ok ["good".toList] ∧
    ∃ e, batchIndexDocuments cexIndexOutcome [cexDocBad, cexDocGood] =
      .error e := by
  constructor
  · have h := (batchIndexDocuments_abort_semantics cexIndexOutcome
      [cexDocGood]).1 ?_
    · rw [h]
      rfl
    · intro d hd
      rw [List.mem_singleton.1 hd]
      exact ⟨"good".toList, rfl⟩
  · refine (batchIndexDocuments_abort_semantics cexIndexOutcome
      [cexDocBad, cexDocGood]).2 cexDocBad (List.mem_cons_self _ _) ?_
    intro i hi
    cases hi
